import Mathlib

/-!
Verification of the regex rule scanner (`regex.py`).

The program loads named regular-expression rules from YAML files in a
directory, compiles them, and matches input tokens against every rule.
We embed the loader (`load_rules`), the matcher (`scan_token`,
`scan_file`) and the driver (`main`) shallowly:

* A compiled regex is abstracted as a `Pattern`: a decidable predicate
  `matchAt tok i` saying whether the pattern matches inside `tok`
  starting at byte position `i`.  `Pattern.search` is Python's
  `re.search`: try every start position (unanchored substring search).
* `re.compile` is an abstract parameter `compile : String → Option Pattern`
  (`none` models `re.error`).  Python's `re.compile ""` succeeds and the
  resulting pattern matches everywhere; the concrete `demoCompile` used
  in witnesses reflects that.
* Parsed YAML file contents are modelled by `FileData`, distinguishing
  exactly the shapes the code distinguishes: a raised parse error
  (caught), falsy data, data without a `patterns` key, a `patterns` key
  holding a non-iterable value (the `for item in data["patterns"]` loop
  then raises an uncaught `TypeError`), and a list of entries.  Entries
  keep the shapes that drive the loop body: a non-mapping item and a
  `pattern` key holding a non-mapping value raise an uncaught
  `AttributeError` at the `.get` calls, and a truthy non-string `regex`
  value makes `re.compile` raise an uncaught `TypeError` — only
  `re.error` is caught.
* Python truthiness on optional strings (`if not regex`, `if args.token`)
  is `truthyOpt`: `None` and the empty string are falsy.
* The driver `main` returns `Except Unit Obs`: `Except.error` models an
  uncaught exception escaping `main`; `Obs` records the observable
  outcome (exit code, tokens scanned, summaries printed, ...).
-/

/-- A compiled regex, abstracted as its matching behaviour: `matchAt tok i`
holds when the pattern matches inside `tok` starting at position `i`. -/
structure Pattern where
  matchAt : String → Nat → Bool

/-- Python `re.search`: unanchored search, trying every start position
`0 .. tok.length` (a match anywhere inside the token counts). -/
def Pattern.search (p : Pattern) (token : String) : Bool :=
  (List.range (token.length + 1)).any (fun i => p.matchAt token i)

/-- A loaded rule: the `(name, compiled)` pair appended by `load_rules`. -/
structure Rule where
  name : String
  pattern : Pattern

/-- The value of an entry's `regex` field.  `str` is a string value;
`nonStrTruthy` is a truthy non-string YAML value (e.g. `123`): it passes
`if not regex`, and then `re.compile` raises an uncaught `TypeError`;
`nonStrFalsy` is a falsy non-string value (e.g. `0` or `[]`): the entry
is skipped at the `if not regex` check. -/
inductive RegexVal where
  | str (s : String)
  | nonStrTruthy
  | nonStrFalsy

/-- The nested `pattern` object of one entry of the `patterns` list:
optional `name` and `regex` fields (absent field = `none`). -/
structure PatternObj where
  name : Option String
  regex : Option RegexVal

/-- The value under an entry's `pattern` key: `absent` = no `pattern` key
(`item.get("pattern", {})` yields the `{}` default); `nonDictVal` = the
key is present but holds a non-mapping value (e.g. `pattern: null`), on
which `pattern_obj.get("name", ...)` raises an uncaught `AttributeError`;
`obj` = a mapping. -/
inductive PatternKey where
  | absent
  | nonDictVal
  | obj (p : PatternObj)

/-- One item of a file's `patterns` list.  `nonDict` models a non-mapping
item (e.g. a `null` or scalar list element), on which
`item.get("pattern", {})` raises an uncaught `AttributeError`. -/
inductive PatternItem where
  | nonDict
  | dict (pattern : PatternKey)

/-- The value found under a file's `patterns` key. `notIterable` models a
non-list value such as `null` or an int: iterating it raises `TypeError`. -/
inductive PatternsVal where
  | list (items : List PatternItem)
  | notIterable

/-- Outcome of opening and YAML-parsing one rule file, as the code
distinguishes it: `parseError` = exception in `open`/`yaml.safe_load`
(caught, file skipped); `falsy` = `not data`; `noPatternsKey` = truthy
data without a `patterns` key; `patterns v` = data with a `patterns` key. -/
inductive FileData where
  | parseError
  | falsy
  | noPatternsKey
  | patterns (v : PatternsVal)

/-- The abstract `re.compile`: `none` models a raised `re.error`. -/
abbrev Compile := String → Option Pattern

/-- The rule set built by `load_rules`: file → its loaded rules, in
insertion order.  A `defaultdict(list)` only gains a key at the first
`append`, so only files contributing at least one rule appear. -/
abbrev RuleSet := List (String × List Rule)

/-- Python truthiness of an optional string: `None` and `""` are falsy. -/
def truthyOpt : Option String → Bool
  | none => false
  | some s => !s.isEmpty

/-- Processing of one `pattern` object: default the name to `"unknown"`,
skip falsy regexes (`if not regex: continue` — absent, empty string, or
falsy non-string), let `re.compile` on a truthy non-string raise an
uncaught `TypeError` (`error`), and skip entries whose string regex fails
to compile (`except re.error: continue`). -/
def processObj (compile : Compile) (pobj : PatternObj) : Except Unit (Option Rule) :=
  let name := pobj.name.getD "unknown"
  match pobj.regex with
  | none => .ok none
  | some .nonStrFalsy => .ok none
  | some .nonStrTruthy => .error ()
  | some (.str r) =>
    if r.isEmpty then .ok none
    else
      match compile r with
      | none => .ok none
      | some p => .ok (some { name := name, pattern := p })

/-- The body of the `for item in data["patterns"]` loop: a non-mapping
item, and a `pattern` key holding a non-mapping value, raise an uncaught
`AttributeError` at the `.get` calls (`error`); a missing `pattern` key
defaults to `{}`; otherwise the nested object is processed. -/
def processItem (compile : Compile) (item : PatternItem) : Except Unit (Option Rule) :=
  match item with
  | .nonDict => .error ()
  | .dict .nonDictVal => .error ()
  | .dict .absent => processObj compile { name := none, regex := none }
  | .dict (.obj pobj) => processObj compile pobj

/-- The `for item in data["patterns"]` loop over a file's items, in
order: a raising item aborts the whole loop, a skipped item contributes
nothing, and each compiled rule is appended. -/
def processItems (compile : Compile) : List PatternItem → Except Unit (List Rule)
  | [] => .ok []
  | item :: rest =>
    match processItem compile item with
    | .error e => .error e
    | .ok none => processItems compile rest
    | .ok (some r) =>
      match processItems compile rest with
      | .error e => .error e
      | .ok rs => .ok (r :: rs)

/-- Processing of one discovered file inside `load_rules`.  A caught parse
error, falsy data, or a missing `patterns` key contribute no rules; a
non-iterable `patterns` value raises an uncaught `TypeError` (`error`);
otherwise each item of the list is processed in order. -/
def loadFileRules (compile : Compile) : FileData → Except Unit (List Rule)
  | .parseError => .ok []
  | .falsy => .ok []
  | .noPatternsKey => .ok []
  | .patterns .notIterable => .error ()
  | .patterns (.list items) => processItems compile items

/-- The `for file in files` loop of `load_rules`: accumulate each file's
rules (a file only appears as a key when it contributed at least one
rule) and the running total; an uncaught exception aborts the load. -/
def loadFiles (compile : Compile) : List (String × FileData) → Except Unit (RuleSet × Nat)
  | [] => .ok ([], 0)
  | (fname, fd) :: rest =>
    match loadFileRules compile fd with
    | .error e => .error e
    | .ok rs =>
      match loadFiles compile rest with
      | .error e => .error e
      | .ok (acc, n) => .ok (if rs.isEmpty then acc else (fname, rs) :: acc, rs.length + n)

/-- All suffixes of a character list, longest first. -/
def tails : List Char → List (List Char)
  | [] => [[]]
  | c :: rest => (c :: rest) :: tails rest

/-- Shell-style wildcard match of a pattern containing only literal
characters and `*` (the shape of `glob.glob`'s matching for `*.y*ml`):
`*` matches any — possibly empty — sequence of characters. -/
def globMatch : List Char → List Char → Bool
  | [], cs => cs.isEmpty
  | '*' :: ps', cs => (tails cs).any (fun t => globMatch ps' t)
  | p :: ps', cs =>
    match cs with
    | [] => false
    | c :: cs' => p == c && globMatch ps' cs'

/-- File discovery of `load_rules`: the name matches the glob `*.y*ml`,
and — per `glob.glob` semantics — a leading `*` never matches a leading
dot, so hidden files are excluded. -/
def matchesRuleGlob (name : String) : Bool :=
  (match name.toList with
   | '.' :: _ => false
   | _ => true) && globMatch "*.y*ml".toList name.toList

/-- `load_rules(rules_dir)`: glob the directory listing with `*.y*ml`,
then process each matching file in order. -/
def load_rules (compile : Compile) (dir : List (String × FileData)) :
    Except Unit (RuleSet × Nat) :=
  loadFiles compile (dir.filter (fun f => matchesRuleGlob f.1))

/-- The per-file `matches` list built by `scan_token`: the names of the
rules of that file whose pattern search succeeds on the token. -/
def file_matches (token : String) (rules : List Rule) : List String :=
  rules.filterMap (fun r => if r.pattern.search token then some r.name else none)

/-- `scan_token(token, rules)`: evaluate every rule of every file against
the token and return the total match count. -/
def scan_token (token : String) (ruleSet : RuleSet) : Nat :=
  (ruleSet.map (fun fr => (file_matches token fr.2).length)).sum

/-- All `(file, rule)` pairs of a rule set, in iteration order. -/
def rulePairs (ruleSet : RuleSet) : List (String × Rule) :=
  ruleSet.flatMap (fun fr => fr.2.map (fun r => (fr.1, r)))

/-- Parsed command-line arguments (`argparse`): `-t` (`--token`), `-f`
(`--file`), `-d` (`--directory`, with its default), `--no-color`. -/
structure Args where
  token : Option String
  file : Option String
  directory : String
  no_color : Bool

/-- Observable outcome of a run: process exit code, whether usage help
was shown, whether the no-valid-rules error was printed, tokens scanned,
total matches, the `print_summary` calls (tokens, matches) in order,
whether `scan_file` was invoked, and whether the input-file-not-found
error was printed. -/
structure Obs where
  exit : Nat
  helpShown : Bool
  noRulesErr : Bool
  scans : Nat
  total_matches : Nat
  summaries : List (Nat × Nat)
  usedFile : Bool
  fileErr : Bool
deriving DecidableEq, Repr

/-- The outcome of a run that printed nothing and exited normally. -/
def emptyObs : Obs :=
  { exit := 0, helpShown := false, noRulesErr := false, scans := 0, total_matches := 0,
    summaries := [], usedFile := false, fileErr := false }

/-- Python `str.strip()` on a line: drop leading and trailing whitespace
(structurally, so that concrete runs evaluate). -/
def stripLine (s : String) : String :=
  ⟨((s.toList.dropWhile Char.isWhitespace).reverse.dropWhile Char.isWhitespace).reverse⟩

/-- `scan_file(path, rules)`: if the file does not exist, print the error
and return without scanning (and without a summary); otherwise strip each
line, skip blank lines, scan every remaining token, and print the summary
once. -/
def scan_file (tokenFile : Option (List String)) (ruleSet : RuleSet) : Obs :=
  match tokenFile with
  | none => { emptyObs with usedFile := true, fileErr := true }
  | some lines =>
    let toks := (lines.map stripLine).filter (fun t => !t.isEmpty)
    let scans := toks.length
    let ms := (toks.map (fun t => scan_token t ruleSet)).sum
    { emptyObs with
      usedFile := true,
      scans := scans,
      total_matches := ms,
      summaries := [(scans, ms)] }

/-- `main()`: if neither `-t` nor `-f` is truthy, print help and exit 1;
load the rules (an uncaught exception propagates); if zero rules loaded,
print the error and exit 1; else scan the single token (when truthy) or
the token file, and print the summary.  `dir` is the listing of the rules
directory; `tokenFile` is the token file's lines, `none` when the path
does not exist. -/
def mainRun (compile : Compile) (args : Args) (dir : List (String × FileData))
    (tokenFile : Option (List String)) : Except Unit Obs :=
  if !truthyOpt args.token && !truthyOpt args.file then
    .ok { emptyObs with exit := 1, helpShown := true }
  else
    match load_rules compile dir with
    | .error e => .error e
    | .ok (ruleSet, total) =>
      if total = 0 then .ok { emptyObs with exit := 1, noRulesErr := true }
      else if truthyOpt args.token then
        let t := args.token.getD ""
        .ok { emptyObs with
              scans := 1,
              total_matches := scan_token t ruleSet,
              summaries := [(1, scan_token t ruleSet)] }
      else if truthyOpt args.file then
        .ok (scan_file tokenFile ruleSet)
      else
        .ok emptyObs

/-- A concrete literal-substring pattern for witnesses: matches at `i`
exactly when `s` occurs in the token starting at position `i`.  This is
the behaviour of `re.compile(s).search` for a literal `s`; in particular
`literalPattern ""` matches everywhere, as `re.compile("")` does. -/
def literalPattern (s : String) : Pattern :=
  { matchAt := fun tok i => (tok.toList.drop i).take s.length == s.toList }

/-- A concrete compiler for witnesses, mirroring Python `re`: `"("` fails
to compile (`re.error`), every other string — including `""` — compiles. -/
def demoCompile : Compile :=
  fun s => if s = "(" then none else some (literalPattern s)

/-- Forget compiled patterns, keeping rule names and counts, so that
concrete load results can be compared decidably. -/
def loadSummary (r : RuleSet × Nat) : List (String × List String) × Nat :=
  (r.1.map (fun fr => (fr.1, fr.2.map (fun ru => ru.name))), r.2)

private lemma file_matches_length (token : String) (f : String) (rs : List Rule) :
    (file_matches token rs).length
      = ((rs.map (fun r => (f, r))).filter (fun pr => pr.2.pattern.search token)).length := by
  induction rs with
  | nil => rfl
  | cons r rs ih =>
    simp only [file_matches, List.filterMap_cons, List.map_cons, List.filter_cons]
    by_cases h : r.pattern.search token
    · simp [h, file_matches] at ih ⊢; omega
    · simp [h, file_matches] at ih ⊢; omega

/-- C1: `scan_token` returns the number of `(file, rule)` pairs whose
compiled pattern matches the token, and pattern search is unanchored
substring search: it succeeds exactly when the pattern matches at some
start position inside the token. -/
theorem scan_token_counts_matching_pairs (token : String) (ruleSet : RuleSet) :
    scan_token token ruleSet
        = ((rulePairs ruleSet).filter (fun pr => pr.2.pattern.search token)).length
      ∧ ∀ p : Pattern,
          p.search token = true ↔ ∃ i, i ≤ token.length ∧ p.matchAt token i = true := by
  constructor
  · induction ruleSet with
    | nil => rfl
    | cons fr rest ih =>
      simp only [scan_token, rulePairs, List.map_cons, List.sum_cons, List.flatMap_cons,
        List.filter_append, List.length_append] at ih ⊢
      rw [file_matches_length token fr.1 fr.2, ih]
  · intro p
    simp only [Pattern.search, List.any_eq_true, List.mem_range]
    constructor
    · rintro ⟨i, hi, hm⟩
      exact ⟨i, Nat.lt_succ_iff.mp hi, hm⟩
    · rintro ⟨i, hi, hm⟩
      exact ⟨i, Nat.lt_succ_iff.mpr hi, hm⟩

/-- C2 counterexample: an entry whose `regex` field is present and whose
value `""` compiles to a valid pattern (as Python's `re.compile("")`
does) is nevertheless skipped by the load — `if not regex` treats the
empty string as absent — so the load of a file holding only that entry
yields no rule. -/
theorem empty_regex_skipped_cex :
    demoCompile "" = some (literalPattern "")
      ∧ (literalPattern "").search "token" = true
      ∧ (load_rules demoCompile
          [("a.yml", .patterns
              (.list [.dict (.obj { name := some "e", regex := some (.str "") })]))]).map
          loadSummary
        = .ok ([], 0) :=
  ⟨rfl, by decide, rfl⟩

/-- C2 (amended): an entry is skipped at the regex-presence check exactly
when its `regex` field is absent or its value is falsy (the empty string,
or a falsy non-string value — Python `if not regex`); every entry whose
regex value is a non-empty string that compiles yields a rule, named by
the `name` field or defaulting to `"unknown"`; and a file's rules are the
per-entry results in order. -/
theorem load_regex_presence (compile : Compile) (n? : Option String) (r : String)
    (p : Pattern) (hr : r.isEmpty = false) (hc : compile r = some p) :
    processItem compile (.dict .absent) = .ok none
      ∧ processItem compile (.dict (.obj { name := n?, regex := none })) = .ok none
      ∧ processItem compile (.dict (.obj { name := n?, regex := some (.str "") })) = .ok none
      ∧ processItem compile (.dict (.obj { name := n?, regex := some .nonStrFalsy })) = .ok none
      ∧ processItem compile (.dict (.obj { name := n?, regex := some (.str r) }))
          = .ok (some { name := n?.getD "unknown", pattern := p })
      ∧ ∀ items, loadFileRules compile (.patterns (.list items)) = processItems compile items := by
  refine ⟨rfl, rfl, rfl, rfl, ?_, fun items => rfl⟩
  simp [processItem, processObj, hr, hc]

/-- Witness for `load_regex_presence` at `demoCompile` and regex `"ab"`. -/
theorem load_regex_presence_witness :
    "ab".isEmpty = false
      ∧ demoCompile "ab" = some (literalPattern "ab")
      ∧ processItem demoCompile (.dict (.obj { name := none, regex := some (.str "ab") }))
          = .ok (some { name := "unknown", pattern := literalPattern "ab" }) :=
  ⟨by decide, rfl,
    (load_regex_presence demoCompile none "ab" (literalPattern "ab")
      (by decide) rfl).2.2.2.2.1⟩

private lemma mem_tails_append (pre cs : List Char) : cs ∈ tails (pre ++ cs) := by
  induction pre with
  | nil =>
    cases cs with
    | nil => simp [tails]
    | cons c rest => simp [tails]
  | cons x pre' ih => simpa [tails] using List.mem_cons_of_mem _ ih

private lemma globMatch_star_suffix (ps' pre cs : List Char)
    (h : globMatch ps' cs = true) : globMatch ('*' :: ps') (pre ++ cs) = true := by
  simp only [globMatch, List.any_eq_true]
  exact ⟨cs, mem_tails_append pre cs, h⟩

private lemma matchesRuleGlob_cons (c : Char) (l : List Char) (hc : c ≠ '.') :
    matchesRuleGlob ⟨c :: l⟩ = globMatch "*.y*ml".toList (c :: l) := by
  unfold matchesRuleGlob
  have hdata : (String.mk (c :: l)).toList = c :: l := rfl
  rw [hdata]
  split
  · rename_i heq
    obtain ⟨rfl, -⟩ := List.cons.inj heq
    exact absurd rfl hc
  · simp

/-- C5 counterexample: the discovery glob is `*.y*ml`, not `*.yml` or
`*.yaml`: a file named `x.yxml` — neither a `.yml` nor a `.yaml` name —
is discovered and contributes rules. -/
theorem glob_matches_non_yaml_cex :
    ".yml".toList.isSuffixOf "x.yxml".toList = false
      ∧ ".yaml".toList.isSuffixOf "x.yxml".toList = false
      ∧ (load_rules demoCompile
          [("x.yxml", .patterns
              (.list [.dict (.obj { name := some "n", regex := some (.str "ab") })]))]).map
          loadSummary
        = .ok ([("x.yxml", ["n"])], 1) :=
  ⟨by decide, by decide, rfl⟩

/-- C5 (amended): load considers exactly the non-hidden files of the
directory whose names match the glob `*.y*ml` (`glob.glob` never matches
a leading dot with `*`).  Every non-hidden name ending in `.yml` or
`.yaml` matches this glob, but so do other names such as `x.yxml`, and
hidden files such as `.hidden.yml` are never considered. -/
theorem load_glob_selection (compile : Compile) (dir : List (String × FileData))
    (c : Char) (pre : List Char) (hc : c ≠ '.') :
    load_rules compile dir
        = loadFiles compile (dir.filter (fun f => matchesRuleGlob f.1))
      ∧ matchesRuleGlob ⟨c :: (pre ++ ".yml".toList)⟩ = true
      ∧ matchesRuleGlob ⟨c :: (pre ++ ".yaml".toList)⟩ = true
      ∧ matchesRuleGlob "x.yxml" = true
      ∧ matchesRuleGlob ".hidden.yml" = false := by
  have hstar : "*.y*ml".toList = '*' :: ".y*ml".toList := rfl
  refine ⟨rfl, ?_, ?_, by decide, by decide⟩
  · rw [matchesRuleGlob_cons c _ hc, hstar,
      show c :: (pre ++ ".yml".toList) = (c :: pre) ++ ".yml".toList from rfl]
    exact globMatch_star_suffix _ _ _ (by decide)
  · rw [matchesRuleGlob_cons c _ hc, hstar,
      show c :: (pre ++ ".yaml".toList) = (c :: pre) ++ ".yaml".toList from rfl]
    exact globMatch_star_suffix _ _ _ (by decide)

/-- Witness for `load_glob_selection`: the non-hidden name `ab.yml`
matches the discovery glob. -/
theorem load_glob_selection_witness :
    ('a' ≠ '.') ∧ matchesRuleGlob ⟨'a' :: ("b".toList ++ ".yml".toList)⟩ = true :=
  ⟨by decide, (load_glob_selection demoCompile [] 'a' "b".toList (by decide)).2.1⟩

private lemma processObj_pattern (compile : Compile) (pobj : PatternObj) (rule : Rule)
    (h : processObj compile pobj = .ok (some rule)) : ∃ s, compile s = some rule.pattern := by
  obtain ⟨n?, reg⟩ := pobj
  cases reg with
  | none => simp [processObj] at h
  | some rv =>
    cases rv with
    | nonStrFalsy => simp [processObj] at h
    | nonStrTruthy => simp [processObj] at h
    | str r =>
      cases he : r.isEmpty with
      | true => simp [processObj, he] at h
      | false =>
        cases hc : compile r with
        | none => simp [processObj, he, hc] at h
        | some p =>
          have hs : processObj compile { name := n?, regex := some (.str r) }
              = .ok (some { name := n?.getD "unknown", pattern := p }) := by
            simp [processObj, he, hc]
          rw [hs] at h
          obtain rfl := Option.some_inj.mp (Except.ok.inj h)
          exact ⟨r, hc⟩

private lemma processItem_pattern (compile : Compile) (item : PatternItem) (rule : Rule)
    (h : processItem compile item = .ok (some rule)) : ∃ s, compile s = some rule.pattern := by
  cases item with
  | nonDict => simp [processItem] at h
  | dict pk =>
    cases pk with
    | nonDictVal => simp [processItem] at h
    | absent => exact processObj_pattern compile { name := none, regex := none } rule h
    | obj pobj => exact processObj_pattern compile pobj rule h

private lemma processItems_pattern (compile : Compile) :
    ∀ (items : List PatternItem) (rs : List Rule),
      processItems compile items = .ok rs → ∀ r ∈ rs, ∃ s, compile s = some r.pattern := by
  intro items
  induction items with
  | nil =>
    intro rs h
    obtain rfl := Except.ok.inj h
    simp
  | cons item rest ih =>
    intro rs h
    rcases hpi : processItem compile item with e | o
    · simp only [processItems, hpi] at h
      exact Except.noConfusion h
    · cases o with
      | none =>
        simp only [processItems, hpi] at h
        exact ih rs h
      | some r0 =>
        rcases hrest : processItems compile rest with e' | rs'
        · simp only [processItems, hpi, hrest] at h
          exact Except.noConfusion h
        · simp only [processItems, hpi, hrest] at h
          obtain rfl := Except.ok.inj h
          intro r hr
          rcases List.mem_cons.mp hr with rfl | hr
          · exact processItem_pattern compile item r hpi
          · exact ih rs' hrest r hr

private lemma loadFileRules_pattern (compile : Compile) (fd : FileData) (rs : List Rule)
    (h : loadFileRules compile fd = .ok rs) :
    ∀ r ∈ rs, ∃ s, compile s = some r.pattern := by
  cases fd with
  | parseError => obtain rfl := Except.ok.inj h; simp
  | falsy => obtain rfl := Except.ok.inj h; simp
  | noPatternsKey => obtain rfl := Except.ok.inj h; simp
  | patterns v =>
    cases v with
    | notIterable => exact absurd h (by simp [loadFileRules])
    | list items => exact processItems_pattern compile items rs h

private lemma loadFiles_count (compile : Compile) (l : List (String × FileData)) :
    ∀ (rs : RuleSet) (n : Nat), loadFiles compile l = .ok (rs, n) →
      n = (rs.map (fun fr => fr.2.length)).sum
        ∧ ∀ fr ∈ rs, ∀ r ∈ fr.2, ∃ s, compile s = some r.pattern := by
  induction l with
  | nil =>
    intro rs n h
    simp only [loadFiles] at h
    obtain ⟨rfl, rfl⟩ := Prod.mk.inj (Except.ok.inj h)
    simp
  | cons fd rest ih =>
    intro rs n h
    obtain ⟨fname, fdata⟩ := fd
    rcases hfrs : loadFileRules compile fdata with e | frs
    · simp only [loadFiles, hfrs] at h
      exact Except.noConfusion h
    · rcases hres : loadFiles compile rest with e' | res
      · simp only [loadFiles, hfrs, hres] at h
        exact Except.noConfusion h
      · obtain ⟨acc, m⟩ := res
        simp only [loadFiles, hfrs, hres] at h
        obtain ⟨hrs, hn⟩ := Prod.mk.inj (Except.ok.inj h)
        subst hrs
        subst hn
        obtain ⟨hsum, hpat⟩ := ih acc m hres
        have hfile := loadFileRules_pattern compile fdata frs hfrs
        by_cases he : frs.isEmpty
        · rw [if_pos he, List.isEmpty_iff.mp he]
          exact ⟨by simpa using hsum, hpat⟩
        · rw [if_neg he]
          refine ⟨by simp [hsum], ?_⟩
          intro fr hfr r hr
          rcases List.mem_cons.mp hfr with hfr | hfr
          · subst hfr; exact hfile r hr
          · exact hpat fr hfr r hr

/-- C6: whenever the load returns, `totalRuleCount` equals the sum over
all files of the returned rule set of the number of rules listed for that
file, and every rule in the returned rule set carries a successfully
compiled pattern (its pattern is the output of `compile` on some source). -/
theorem load_total_count (compile : Compile) (dir : List (String × FileData))
    (rs : RuleSet) (n : Nat) (h : load_rules compile dir = .ok (rs, n)) :
    n = (rs.map (fun fr => fr.2.length)).sum
      ∧ ∀ fr ∈ rs, ∀ r ∈ fr.2, ∃ s, compile s = some r.pattern :=
  loadFiles_count compile (dir.filter (fun f => matchesRuleGlob f.1)) rs n h

/-- Witness for `load_total_count` on a concrete two-rule directory. -/
theorem load_total_count_witness :
    load_rules demoCompile
        [("a.yml", .patterns
            (.list [.dict (.obj { name := some "aws", regex := some (.str "AKIA") }),
                    .dict (.obj { name := some "mail", regex := some (.str "@") })]))]
      = .ok ([("a.yml", [{ name := "aws", pattern := literalPattern "AKIA" },
                         { name := "mail", pattern := literalPattern "@" }])], 2)
      ∧ (2 = ([(("a.yml" : String),
                 [({ name := "aws", pattern := literalPattern "AKIA" } : Rule),
                  { name := "mail", pattern := literalPattern "@" }])].map
               (fun fr => fr.2.length)).sum
          ∧ ∀ fr ∈ [(("a.yml" : String),
                 [({ name := "aws", pattern := literalPattern "AKIA" } : Rule),
                  { name := "mail", pattern := literalPattern "@" }])],
              ∀ r ∈ fr.2, ∃ s, demoCompile s = some r.pattern) :=
  ⟨rfl, load_total_count demoCompile
    [("a.yml", .patterns
        (.list [.dict (.obj { name := some "aws", regex := some (.str "AKIA") }),
                .dict (.obj { name := some "mail", regex := some (.str "@") })]))]
    _ _ rfl⟩

/-- A concrete one-rule directory used by driver witnesses. -/
def demoDir : List (String × FileData) :=
  [("creds.yml", .patterns
      (.list [.dict (.obj { name := some "aws", regex := some (.str "AKIA") })]))]

/-- Concrete arguments: only `-t x` supplied. -/
def argsTokenOnly : Args :=
  { token := some "x", file := none, directory := "d", no_color := false }

/-- Concrete arguments: only `-f toks.txt` supplied. -/
def argsFileOnly : Args :=
  { token := none, file := some "toks.txt", directory := "d", no_color := false }

/-- C7: when the loaded total rule count is zero (and a token or file was
supplied, so the run got past the usage check), the driver prints the
no-valid-rules error and exits with status 1 before any scanning: no
token is scanned and no summary is printed. -/
theorem main_zero_rules_exit (compile : Compile) (args : Args)
    (dir : List (String × FileData)) (tokenFile : Option (List String)) (rs : RuleSet)
    (hmode : truthyOpt args.token = true ∨ truthyOpt args.file = true)
    (hload : load_rules compile dir = .ok (rs, 0)) :
    mainRun compile args dir tokenFile
      = .ok { exit := 1, helpShown := false, noRulesErr := true, scans := 0,
              total_matches := 0, summaries := [], usedFile := false, fileErr := false } := by
  have hguard : (!truthyOpt args.token && !truthyOpt args.file) = false := by
    rcases hmode with h | h <;> simp [h]
  simp [mainRun, hguard, hload, emptyObs]

/-- Witness for `main_zero_rules_exit`: a directory whose only YAML file
is falsy loads zero rules; a single-token run exits 1 without scanning. -/
theorem main_zero_rules_exit_witness :
    truthyOpt (some "x") = true
      ∧ load_rules demoCompile [("a.yml", .falsy)] = .ok ([], 0)
      ∧ mainRun demoCompile argsTokenOnly [("a.yml", .falsy)] none
        = .ok { exit := 1, helpShown := false, noRulesErr := true, scans := 0,
                total_matches := 0, summaries := [], usedFile := false, fileErr := false } :=
  ⟨by decide, rfl,
    main_zero_rules_exit demoCompile argsTokenOnly
      [("a.yml", .falsy)] none [] (Or.inl (by decide)) rfl⟩

/-- C8: in file-of-tokens mode, when the token file does not exist, the
program prints the input-file-not-found error and returns without
scanning any token, and the process exit code stays the default success
code 0. -/
theorem main_missing_file_nonfatal (compile : Compile) (args : Args)
    (dir : List (String × FileData)) (rs : RuleSet) (n : Nat)
    (ht : truthyOpt args.token = false) (hf : truthyOpt args.file = true)
    (hload : load_rules compile dir = .ok (rs, n)) (hn : n ≠ 0) :
    mainRun compile args dir none
      = .ok { exit := 0, helpShown := false, noRulesErr := false, scans := 0,
              total_matches := 0, summaries := [], usedFile := true, fileErr := true } := by
  simp [mainRun, ht, hf, hload, hn, scan_file, emptyObs]

/-- Witness for `main_missing_file_nonfatal` on the concrete one-rule
directory. -/
theorem main_missing_file_nonfatal_witness :
    truthyOpt (none : Option String) = false
      ∧ truthyOpt (some "toks.txt") = true
      ∧ load_rules demoCompile demoDir
          = .ok ([("creds.yml", [{ name := "aws", pattern := literalPattern "AKIA" }])], 1)
      ∧ (1 : Nat) ≠ 0
      ∧ mainRun demoCompile argsFileOnly demoDir none
        = .ok { exit := 0, helpShown := false, noRulesErr := false, scans := 0,
                total_matches := 0, summaries := [], usedFile := true, fileErr := true } :=
  ⟨by decide, by decide, rfl, by decide,
    main_missing_file_nonfatal demoCompile argsFileOnly
      demoDir [("creds.yml", [{ name := "aws", pattern := literalPattern "AKIA" }])] 1
      (by decide) (by decide) rfl (by decide)⟩

/-- C9 counterexample: a run in file-of-tokens mode whose token file does
not exist proceeds past loading (one rule loads) but prints the run
summary zero times, not once: `scan_file` returns before reaching
`print_summary`. -/
theorem missing_file_no_summary_cex :
    (mainRun demoCompile argsFileOnly demoDir none).map
        (fun o => (o.exit, o.summaries, o.fileErr))
      = .ok (0, [], true) := rfl

/-- C9 (amended): in single-token mode, and in file-of-tokens mode
whenever the token file exists, the run summary is printed exactly once,
at the end, carrying the tokens-scanned and total-match counters; when
the token file does not exist, no summary is printed. -/
theorem main_summary_once (compile : Compile) (args : Args) (dir : List (String × FileData))
    (tokenFile : Option (List String)) (rs : RuleSet) (n : Nat)
    (hload : load_rules compile dir = .ok (rs, n)) (hn : n ≠ 0)
    (hmode : truthyOpt args.token = true
      ∨ (truthyOpt args.file = true ∧ tokenFile ≠ none)) :
    ∃ o, mainRun compile args dir tokenFile = .ok o
      ∧ o.summaries = [(o.scans, o.total_matches)] := by
  by_cases htok : truthyOpt args.token = true
  · have hguard : (!truthyOpt args.token && !truthyOpt args.file) = false := by simp [htok]
    refine ⟨{ emptyObs with
              scans := 1,
              total_matches := scan_token (args.token.getD "") rs,
              summaries := [(1, scan_token (args.token.getD "") rs)] }, ?_, rfl⟩
    simp [mainRun, hguard, htok, hload, hn]
  · obtain ⟨hf, htf⟩ : truthyOpt args.file = true ∧ tokenFile ≠ none := by
      rcases hmode with h | h
      · exact absurd h htok
      · exact h
    obtain ⟨lines, rfl⟩ : ∃ ls, tokenFile = some ls := by
      cases tokenFile with
      | none => exact absurd rfl htf
      | some ls => exact ⟨ls, rfl⟩
    have ht' : truthyOpt args.token = false := by
      cases h : truthyOpt args.token
      · rfl
      · exact absurd h htok
    refine ⟨{ emptyObs with
              usedFile := true,
              scans := ((lines.map stripLine).filter (fun t => !t.isEmpty)).length,
              total_matches := (((lines.map stripLine).filter (fun t => !t.isEmpty)).map
                (fun t => scan_token t rs)).sum,
              summaries := [(((lines.map stripLine).filter (fun t => !t.isEmpty)).length,
                (((lines.map stripLine).filter (fun t => !t.isEmpty)).map
                  (fun t => scan_token t rs)).sum)] }, ?_, rfl⟩
    simp [mainRun, ht', hf, hload, hn, scan_file]

/-- Witness for `main_summary_once`: a single-token run over the concrete
one-rule directory prints exactly one summary. -/
theorem main_summary_once_witness :
    load_rules demoCompile demoDir
        = .ok ([("creds.yml", [{ name := "aws", pattern := literalPattern "AKIA" }])], 1)
      ∧ (1 : Nat) ≠ 0
      ∧ truthyOpt argsTokenOnly.token = true
      ∧ ∃ o, mainRun demoCompile argsTokenOnly demoDir none = .ok o
          ∧ o.summaries = [(o.scans, o.total_matches)] :=
  ⟨rfl, by decide, by decide,
    main_summary_once demoCompile argsTokenOnly demoDir none
      [("creds.yml", [{ name := "aws", pattern := literalPattern "AKIA" }])] 1
      rfl (by decide) (Or.inl (by decide))⟩

/-- Concrete arguments supplying both `-t ""` (the empty token) and
`-f toks.txt`. -/
def argsEmptyTokenAndFile : Args :=
  { token := some "", file := some "toks.txt", directory := "d", no_color := false }

/-- Concrete arguments supplying both `-t AKIA99` and `-f toks.txt`. -/
def argsTokenAndFile : Args :=
  { token := some "AKIA99", file := some "toks.txt", directory := "d", no_color := false }

/-- C10 counterexample: an invocation supplying both a single token and a
token file does not always scan only the token: with `-t ""` (the empty
string is falsy, so `if args.token` fails) the program falls through to
the file branch and reads and scans the token file — here scanning its
two non-blank lines. -/
theorem empty_token_file_scanned_cex :
    (mainRun demoCompile argsEmptyTokenAndFile demoDir
        (some ["AKIA123", "", "xyz"])).map (fun o => (o.usedFile, o.scans))
      = .ok (true, 2) := rfl

/-- C10 (amended): for every invocation supplying both a *non-empty*
single token and a token file, the program scans only the single token
and never reads or scans the token file: the run's outcome is
independent of the token file's existence and contents, `scan_file` is
never invoked, and no file error is reported.  (With an empty-string
token, the token is treated as absent and the file is scanned instead.) -/
theorem token_precedence (compile : Compile) (args : Args) (dir : List (String × FileData))
    (tf tf' : Option (List String)) (t : String)
    (ht : args.token = some t) (hne : t.isEmpty = false) :
    mainRun compile args dir tf = mainRun compile args dir tf'
      ∧ ∀ o, mainRun compile args dir tf = .ok o → o.usedFile = false ∧ o.fileErr = false := by
  have htok : truthyOpt args.token = true := by simp [ht, truthyOpt, hne]
  have hguard : (!truthyOpt args.token && !truthyOpt args.file) = false := by simp [htok]
  have key : ∀ tfx : Option (List String),
      mainRun compile args dir tfx
        = (load_rules compile dir).map (fun res =>
            if res.2 = 0 then { emptyObs with exit := 1, noRulesErr := true }
            else { emptyObs with
                   scans := 1,
                   total_matches := scan_token (args.token.getD "") res.1,
                   summaries := [(1, scan_token (args.token.getD "") res.1)] }) := by
    intro tfx
    simp only [mainRun, hguard, Bool.false_eq_true, if_false]
    cases load_rules compile dir with
    | error e => rfl
    | ok res =>
      obtain ⟨ruleSet, total⟩ := res
      by_cases hz : total = 0
      · simp [hz, Except.map]
      · simp [hz, htok, Except.map]
  refine ⟨by rw [key tf, key tf'], ?_⟩
  intro o ho
  rw [key tf] at ho
  cases hld : load_rules compile dir with
  | error e => rw [hld] at ho; exact Except.noConfusion ho
  | ok res =>
    rw [hld] at ho
    simp only [Except.map] at ho
    obtain rfl := Except.ok.inj ho
    by_cases hz : res.2 = 0
    · rw [if_pos hz]
      exact ⟨rfl, rfl⟩
    · rw [if_neg hz]
      exact ⟨rfl, rfl⟩

/-- Witness for `token_precedence`: with `-t AKIA99` and `-f toks.txt`,
the run ignores the token file entirely. -/
theorem token_precedence_witness :
    argsTokenAndFile.token = some "AKIA99"
      ∧ "AKIA99".isEmpty = false
      ∧ mainRun demoCompile argsTokenAndFile demoDir (some ["AKIA123"])
          = mainRun demoCompile argsTokenAndFile demoDir none
      ∧ ∀ o, mainRun demoCompile argsTokenAndFile demoDir (some ["AKIA123"]) = .ok o →
          o.usedFile = false ∧ o.fileErr = false :=
  ⟨rfl, by decide,
    (token_precedence demoCompile argsTokenAndFile demoDir (some ["AKIA123"]) none
      "AKIA99" rfl (by decide)).1,
    (token_precedence demoCompile argsTokenAndFile demoDir (some ["AKIA123"]) none
      "AKIA99" rfl (by decide)).2⟩
